import Mathlib

/-!
Verification of the control-archive assembly pipeline of `cargo-deb`
(`src/control.rs`): a shallow embedding of `generate_archive`,
`generate_md5sums`, `generate_control`, `generate_conf_files`,
`generate_scripts` and `generate_triggers_file`, together with theorems
about member ordering, control-field layout, digest-manifest content,
maintainer-script search precedence and the pipeline's failure modes.

Modelling conventions:
* Buffered byte output is modelled as `String` (all content written by the
  pipeline is text); `write!`/`writeln!` to an in-memory buffer never fails
  in Rust, so buffer writes are pure string concatenation here.
* `CDResult` together with the possibility of a panic is modelled by the
  three-valued `Outcome` type: `ok`, `err` (a returned `CargoDebError`;
  claims never inspect the error payload, so it is not carried), and
  `panic` (an `unwrap`/`expect` failure, which unwinds and is neither a
  typed error nor retried).
* The filesystem is modelled as an association list from paths (lists of
  components) to `Option String`: `some c` is a readable file with content
  `c`, `none` is a file that exists but whose read fails (e.g. permission
  denied).  Collaborators that live outside `src/` (`tararchive.rs`,
  `util.rs::find_first`, `dh_lib.rs`, `dh_installsystemd.rs`,
  `wordsplit.rs`, `pathbytes.rs`, and the `Config` accessors of
  `manifest.rs`) are modelled from the spec; each such definition carries a
  doc comment saying so.
* The `Listener` collaborator is purely observational (spec §6) and is
  dropped from the model.
-/

/-- A filesystem path, as a list of components. -/
abbrev FsPath := List String

/-- Three-valued result of a pipeline step: a successful value, a returned
`CargoDebError` (payload not carried), or a panic (`unwrap` failure). -/
inductive Outcome (α : Type) where
  | ok : α → Outcome α
  | err : Outcome α
  | panic : Outcome α
deriving Repr, DecidableEq

/-- Monadic bind for `Outcome`, mirroring the `?` operator (errors and
panics propagate). -/
def Outcome.bind {α β : Type} : Outcome α → (α → Outcome β) → Outcome β
  | .ok a, f => f a
  | .err, _ => .err
  | .panic, _ => .panic

/-- Association-list lookup (first match wins). -/
def alist_get {α β : Type} [DecidableEq α] : List (α × β) → α → Option β
  | [], _ => none
  | (k, v) :: rest, a => if k = a then some v else alist_get rest a

/-- Modelled from the spec: the filesystem state seen by the pipeline
(the collaborating real filesystem is outside `src/`).  Each entry maps a
path to `some content` (readable file) or `none` (file exists but reading
it fails). -/
structure FS where
  files : List (FsPath × Option String)
deriving Repr, DecidableEq

/-- Metadata lookup: does a path carry an entry, and with which
readability. -/
def FS.lookup (fs : FS) (p : FsPath) : Option (Option String) :=
  alist_get fs.files p

/-- Modelled from the spec: `fs::read` — succeeds exactly on an existing,
readable file. -/
def FS.read (fs : FS) (p : FsPath) : Option String :=
  match fs.lookup p with
  | some (some c) => some c
  | _ => none

/-- Modelled from the spec: path existence as used by the first-match
script search (a file of the given path exists, readable or not). -/
def FS.pathExists (fs : FS) (p : FsPath) : Bool :=
  (fs.lookup p).isSome

/-- Modelled from the spec: `tmp_dir.exists()` — some file lives under the
directory. -/
def FS.dirExists (fs : FS) (d : FsPath) : Bool :=
  fs.files.any (fun e => List.isPrefixOf d e.1)

/-- Modelled from the spec: `fs::remove_dir_all` — drops every entry under
the directory. -/
def FS.removeDirAll (fs : FS) (d : FsPath) : FS :=
  ⟨fs.files.filter (fun e => !(List.isPrefixOf d e.1))⟩

/-- Modelled from the spec: writing a file (used by the token-substitution
engine when it stages merged scripts in the workspace). -/
def FS.write (fs : FS) (p : FsPath) (c : String) : FS :=
  ⟨(p, some c) :: fs.files⟩

/-- Modelled from the spec (§6 ArchiveWriter, `tararchive.rs`, outside
`src/`): one named blob of the control archive, tagged with a permission
mode and the caller-supplied timestamp. -/
structure Entry where
  name : String
  data : String
  mode : Nat
  mtime : Nat
deriving Repr, DecidableEq

/-- Modelled from the spec (§6 ArchiveWriter): the archive accumulates
entries in call order; every entry is tagged with the single timestamp
given to `Archive::new`. -/
structure Archive where
  time : Nat
  entries : List Entry
deriving Repr, DecidableEq

/-- `Archive::new(time)`. -/
def Archive.new (time : Nat) : Archive := ⟨time, []⟩

/-- `archive.file(name, data, mode)` appends one entry tagged with the
archive's timestamp. -/
def Archive.file (a : Archive) (name data : String) (mode : Nat) : Archive :=
  ⟨a.time, a.entries ++ [⟨name, data, mode, a.time⟩]⟩

/-- Modelled from the spec: `into_inner` finalizes the archive; the outer
container byte format is owned by the collaborator, so the model returns
the ordered member list. -/
def Archive.into_inner (a : Archive) : List Entry := a.entries

/-- `AssetSource` (only its `len()` accessor is consumed here):
`some n` is a source of `n` bytes, `none` a sizeless source (symlink). -/
structure AssetSource where
  len : Option Nat
deriving Repr, DecidableEq

/-- One resolved asset: its installation target path and its source. -/
structure Asset where
  target_path : FsPath
  source : AssetSource
deriving Repr, DecidableEq

/-- The resolved asset list of the configuration. -/
structure Assets where
  resolved : List Asset
deriving Repr, DecidableEq

/-- The systemd-units configuration (`unit_name` is the only field the
code under `src/` reads). -/
structure SystemdUnitsConfig where
  unit_name : Option String
deriving Repr, DecidableEq

/-- The package configuration consumed by the pipeline.  Accessor methods
of `manifest.rs` (outside `src/`) are modelled as precomputed fields:
`repository_type` models `options.repository_type()` (the VCS kind
derivable from the repository URL, if any), `get_dependencies` models
`options.get_dependencies(listener)` (`some deps` on success, `none` for
the error case), `deb_temp_dir` models `options.deb_temp_dir()`.
The Rust field `section` is called `section'` (`section` is a Lean
keyword). -/
structure Config where
  name : String
  deb_name : String
  deb_version : String
  architecture : String
  repository : Option String
  repository_type : Option String
  homepage : Option String
  documentation : Option String
  section' : Option String
  priority : String
  maintainer : String
  get_dependencies : Option String
  build_depends : Option String
  conflicts : Option String
  breaks : Option String
  replaces : Option String
  provides : Option String
  description : String
  extended_description : Option String
  assets : Assets
  conf_files : Option String
  maintainer_scripts : Option FsPath
  systemd_units : Option SystemdUnitsConfig
  triggers_file : Option FsPath
  deb_temp_dir : FsPath
  manifest_dir : FsPath

/-- The environment of one assembly invocation: the filesystem, the
host's path canonicalization (`Path::canonicalize`, host-dependent, so
kept abstract), and fault injection for the two fallible directory
operations of `generate_scripts`. -/
structure Env where
  fs : FS
  canon : FsPath → Option FsPath
  remove_dir_all_err : Bool
  create_dir_err : Bool

/-- Modelled from the spec: `str::starts_with` of the Rust standard
library, on the character sequence. -/
def starts_with (s p : String) : Bool :=
  List.isPrefixOf p.data s.data

/-- Modelled from the spec: `as_unix_path` (`pathbytes.rs`, outside
`src/`): renders a path with forward-slash separators regardless of host
path conventions. -/
def as_unix_path (p : FsPath) : String :=
  String.intercalate "/" p

/-- Modelled from the spec: one whitespace-splitting pass of
`split_by_chars` (`wordsplit.rs`, outside `src/`). -/
def words_aux : List Char → List Char → List String
  | [], cur => if cur = [] then [] else [String.mk cur.reverse]
  | c :: cs, cur =>
    if c = ' ' then
      if cur = [] then words_aux cs [] else String.mk cur.reverse :: words_aux cs []
    else words_aux cs (c :: cur)

/-- Modelled from the spec: greedy line packing of `split_by_chars`. -/
def wrap_words (width : Nat) : List String → String → List String
  | [], cur => if cur = "" then [] else [cur]
  | w :: ws, cur =>
    if cur = "" then wrap_words width ws w
    else if cur.length + 1 + w.length ≤ width then wrap_words width ws (cur ++ " " ++ w)
    else cur :: wrap_words width ws w

/-- Modelled from the spec: `split_by_chars` (`wordsplit.rs`, outside
`src/`) word-wraps text to lines of at most `width` characters. -/
def split_by_chars (s : String) (width : Nat) : List String :=
  wrap_words width (words_aux s.data []) ""

/-- The `#DEBHELPER#` marker token, as a character sequence. -/
def debhelper_token : List Char := "#DEBHELPER#".data

/-- Substring occurrence test for the marker token (structural, over the
character list). -/
def contains_chars (sub : List Char) : List Char → Bool
  | [] => sub.isEmpty
  | c :: cs => List.isPrefixOf sub (c :: cs) || contains_chars sub cs

/-- Does a script contain the `#DEBHELPER#` marker token? -/
def containsToken (s : String) : Bool :=
  contains_chars debhelper_token s.data

/-- Modelled from the spec: replacement of the first occurrence of the
marker token by the generated fragment. -/
def replace_token_chars (frag : List Char) : List Char → List Char
  | [] => []
  | c :: cs =>
    if List.isPrefixOf debhelper_token (c :: cs) then
      frag ++ List.drop debhelper_token.length (c :: cs)
    else c :: replace_token_chars frag cs

/-- Modelled from the spec: rewrite a user script by replacing the marker
token with the generated fragment. -/
def replaceToken (frag s : String) : String :=
  String.mk (replace_token_chars frag.data s.data)

/-- Modelled from the spec: a full default maintainer script synthesized
from a template around the generated fragment (`dh_lib.rs`, outside
`src/`). -/
def default_script (frag : String) : String :=
  "#!/bin/sh\nset -e\n" ++ frag ++ "\n"

/-- Modelled from the spec (§4.5c, §6 TokenSubstitutionEngine):
`dh_lib::apply` (`dh_lib.rs`, outside `src/`).  For each maintainer-script
name for which the fragment generator produced a shell fragment: if a
user-supplied script of that name exists, the `#DEBHELPER#` token in it is
replaced by the fragment and the merged script is staged in the workspace
— the token's absence is a hard, unrecoverable failure (panic); if no user
script of that name exists, a full default script is synthesized from a
template instead. -/
def dh_lib_apply (fs : FS) (tmp_dir user_dir : FsPath) : List (String × String) → Outcome FS
  | [] => .ok fs
  | (name, frag) :: rest =>
    match FS.read fs (user_dir ++ [name]) with
    | some script =>
      if containsToken script then
        dh_lib_apply (fs.write (tmp_dir ++ [name]) (replaceToken frag script)) tmp_dir user_dir rest
      else .panic
    | none =>
      dh_lib_apply (fs.write (tmp_dir ++ [name]) (default_script frag)) tmp_dir user_dir rest

/-- Modelled from the spec: `find_first` (`util.rs`, outside `src/`):
scan the search path in order and take the first directory that contains a
file of the given name, returning that file's path. -/
def find_first (fs : FS) (dirs : List FsPath) (name : String) : Option FsPath :=
  match dirs with
  | [] => none
  | d :: rest =>
    if fs.pathExists (d ++ [name]) then some (d ++ [name]) else find_first fs rest name

/-- The six canonical maintainer-script names, in the order the source
iterates over them. -/
def script_names : List String :=
  ["config", "preinst", "postinst", "prerm", "postrm", "templates"]

/-- The workspace directory for staged systemd maintainer scripts:
`option.deb_temp_dir().join("systemd")`. -/
def tmp_dir_of (option : Config) : FsPath :=
  option.deb_temp_dir ++ ["systemd"]

/-- The loop of `generate_scripts` over the six canonical names: resolve
each name by first-match search, `canonicalize().unwrap()` (panic on
failure), `strip_prefix(manifest_dir).unwrap()` (panic unless the
canonical path lies under the manifest directory), then — only if the
resolved file can actually be read — append it with mode `0o755`.  A name
resolved to an unreadable file, or not resolved at all, is skipped. -/
def archive_scripts (fs : FS) (search_dirs : List FsPath) (canon : FsPath → Option FsPath) (manifest_dir : FsPath) (archive : Archive) : List String → Outcome Archive
  | [] => .ok archive
  | name :: rest =>
    match find_first fs search_dirs name with
    | none => archive_scripts fs search_dirs canon manifest_dir archive rest
    | some script_path =>
      match canon script_path with
      | none => .panic
      | some abs_path =>
        if List.isPrefixOf manifest_dir abs_path then
          match FS.read fs script_path with
          | some script =>
            archive_scripts fs search_dirs canon manifest_dir (archive.file name script 0o755) rest
          | none => archive_scripts fs search_dirs canon manifest_dir archive rest
        else .panic

/-- The systemd branch of `generate_scripts`: recreate a clean workspace
(`remove_dir_all` of a stale one, then `create_dir`, both propagating I/O
errors), let the fragment generator populate it (`dh_installsystemd::
generate`, outside `src/`; its side effect is abstracted by the
`fragments` argument — the name-to-fragment choices it made), run the
token-substitution engine, and prepend the workspace to the search
path. -/
def script_search_setup (env : Env) (option : Config) (maintainer_scripts : FsPath) (fragments : List (String × String)) : Outcome (FS × List FsPath) :=
  match option.systemd_units with
  | none => .ok (env.fs, [maintainer_scripts])
  | some _cfg =>
    let tmp_dir := tmp_dir_of option
    (if env.fs.dirExists tmp_dir then
        if env.remove_dir_all_err then Outcome.err else .ok (env.fs.removeDirAll tmp_dir)
      else .ok env.fs).bind fun fs1 =>
    if env.create_dir_err then .err
    else
      (dh_lib_apply fs1 tmp_dir maintainer_scripts fragments).bind fun fs2 =>
      .ok (fs2, tmp_dir :: [maintainer_scripts])

/-- `generate_scripts` (`control.rs` lines 59-115): contributes nothing
without a configured maintainer-script directory; otherwise builds the
search path (workspace first when systemd integration is active) and
archives the six canonical scripts by first-match resolution.  Returns the
filesystem as left behind for the later triggers step. -/
def generate_scripts (env : Env) (option : Config) (fragments : List (String × String)) (archive : Archive) : Outcome (FS × Archive) :=
  match option.maintainer_scripts with
  | none => .ok (env.fs, archive)
  | some maintainer_scripts =>
    (script_search_setup env option maintainer_scripts fragments).bind fun p =>
    (archive_scripts p.1 p.2 env.canon option.manifest_dir archive script_names).bind fun a2 =>
    .ok (p.1, a2)

/-- The body of the md5sums loop: for each asset with a recorded digest,
one line `<digest><two spaces><unix path>\n`; assets without a digest
contribute nothing. -/
def md5sums_content (asset_hashes : List (FsPath × String)) : List Asset → String
  | [] => ""
  | asset :: rest =>
    (match alist_get asset_hashes asset.target_path with
     | some value => value ++ "  " ++ as_unix_path asset.target_path ++ "\n"
     | none => "") ++ md5sums_content asset_hashes rest

/-- `generate_md5sums` (`control.rs` lines 118-135).  The digest values of
`asset_hashes` stand for the `{:x}` (lowercase hex) rendering of the
collaborator-computed md5 digests. -/
def generate_md5sums (archive : Archive) (options : Config) (asset_hashes : List (FsPath × String)) : Outcome Archive :=
  .ok (archive.file "./md5sums" (md5sums_content asset_hashes options.assets.resolved) 0o644)

/-- An optional `Key: value` control line: emitted only when the value is
present. -/
def opt_field (key : String) : Option String → String
  | some value => key ++ ": " ++ value ++ "\n"
  | none => ""

/-- The two conditional Vcs lines (`control.rs` lines 146-153):
`Vcs-Browser` only for a repository URL starting with `http`, and
`Vcs-<Kind>` only when a kind is derivable from the repository URL. -/
def vcs_lines (options : Config) : String :=
  match options.repository with
  | some repo =>
    (if starts_with repo "http" then "Vcs-Browser: " ++ repo ++ "\n" else "") ++
    (match options.repository_type with
     | some kind => "Vcs-" ++ kind ++ ": " ++ repo ++ "\n"
     | none => "")
  | none => ""

/-- The `Homepage` line (`control.rs` lines 154-156): the configured
homepage, falling back to the documentation URL. -/
def homepage_line (options : Config) : String :=
  match options.homepage with
  | some homepage => "Homepage: " ++ homepage ++ "\n"
  | none =>
    match options.documentation with
    | some documentation => "Homepage: " ++ documentation ++ "\n"
    | none => ""

/-- The conditional `Section` line (`control.rs` lines 157-159). -/
def section_line (options : Config) : String :=
  match options.section' with
  | some s => "Section: " ++ s ++ "\n"
  | none => ""

/-- `Installed-Size` (`control.rs` lines 164-167): the sum of the asset
source sizes in bytes, integer-divided by 1024 (`u64` division truncates,
as does `Nat` division). -/
def installed_size (assets : List Asset) : Nat :=
  (assets.filterMap (fun m => m.source.len)).sum / 1024

/-- Description continuation lines: each wrapped line is emitted prefixed
by one space (`control.rs` lines 191-199). -/
def description_block : List String → String
  | [] => ""
  | line :: rest => " " ++ line ++ "\n" ++ description_block rest

/-- The complete control-file text (`control.rs` lines 140-200).  Buffer
writes cannot fail, so the only failure is the dependency resolver
(`get_dependencies`); writes before and after that call are pure
concatenations, in source order. -/
def control_content (options : Config) : Outcome String :=
  match options.get_dependencies with
  | none => .err
  | some deps => .ok (
      "Package: " ++ options.deb_name ++ "\n" ++
      ("Version: " ++ options.deb_version ++ "\n") ++
      ("Architecture: " ++ options.architecture ++ "\n") ++
      vcs_lines options ++
      homepage_line options ++
      section_line options ++
      ("Priority: " ++ options.priority ++ "\n") ++
      "Standards-Version: 3.9.4\n" ++
      ("Maintainer: " ++ options.maintainer ++ "\n") ++
      ("Installed-Size: " ++ toString (installed_size options.assets.resolved) ++ "\n") ++
      ("Depends: " ++ deps ++ "\n") ++
      opt_field "Build-Depends" options.build_depends ++
      opt_field "Conflicts" options.conflicts ++
      opt_field "Breaks" options.breaks ++
      opt_field "Replaces" options.replaces ++
      opt_field "Provides" options.provides ++
      ("Description:" ++ description_block (split_by_chars options.description 79)) ++
      (match options.extended_description with
       | some desc => description_block (split_by_chars desc 79)
       | none => "") ++
      "\n")

/-- `generate_control` (`control.rs` lines 138-205): the control text is
appended as `./control` with mode `0o644`. -/
def generate_control (archive : Archive) (options : Config) : Outcome Archive :=
  (control_content options).bind fun control =>
  .ok (archive.file "./control" control 0o644)

/-- `generate_conf_files` (`control.rs` lines 208-214): the configured
text verbatim plus exactly one appended newline, as `./conffiles`. -/
def generate_conf_files (archive : Archive) (files : String) : Outcome Archive :=
  .ok (archive.file "./conffiles" (files ++ "\n") 0o644)

/-- `generate_triggers_file` (`control.rs` lines 216-221): the file's
content verbatim as `./triggers`; an unreadable file is silently treated
as no triggers file. -/
def generate_triggers_file (archive : Archive) (fs : FS) (path : FsPath) : Outcome Archive :=
  match FS.read fs path with
  | some content => .ok (archive.file "./triggers" content 0o644)
  | none => .ok archive

/-- `generate_archive` (`control.rs` lines 17-29): the five steps in fixed
order; the first fault aborts the chain, and only a fully assembled
archive's member list is returned. -/
def generate_archive (env : Env) (options : Config) (time : Nat) (asset_hashes : List (FsPath × String)) (fragments : List (String × String)) : Outcome (List Entry) :=
  (generate_md5sums (Archive.new time) options asset_hashes).bind fun archive =>
  (generate_control archive options).bind fun archive =>
  (match options.conf_files with
   | some files => generate_conf_files archive files
   | none => .ok archive).bind fun archive =>
  (generate_scripts env options fragments archive).bind fun p =>
  (match options.triggers_file with
   | some file => generate_triggers_file p.2 p.1 file
   | none => .ok p.2).bind fun archive =>
  .ok archive.into_inner

/-- Concatenation of a list of strings, in order. -/
def concat_all : List String → String
  | [] => ""
  | s :: rest => s ++ concat_all rest

/-- The md5sums loop in closed form: one line per asset that has a
recorded digest, in asset order. -/
theorem md5sums_content_eq (h : List (FsPath × String)) (as : List Asset) :
    md5sums_content h as = concat_all (as.filterMap fun asset =>
      (alist_get h asset.target_path).map
        (fun value => value ++ "  " ++ as_unix_path asset.target_path ++ "\n")) := by
  induction as with
  | nil => rfl
  | cons a rest ih =>
    simp only [md5sums_content, List.filterMap_cons]
    cases alist_get h a.target_path with
    | none => simpa using ih
    | some v => simp [concat_all, ih]

/-- C5: the md5sums member contains, for every asset that has a recorded
digest and in asset order, exactly the line
`<digest><two spaces><unix-style target path>\n`, the path rendered with
forward-slash separators; assets without a digest produce no line.  The
member is `./md5sums` with mode `0o644`, tagged with the archive
timestamp. -/
theorem md5sums_member_content (archive : Archive) (options : Config) (asset_hashes : List (FsPath × String)) :
    generate_md5sums archive options asset_hashes =
      .ok ⟨archive.time, archive.entries ++ [⟨"./md5sums",
        concat_all (options.assets.resolved.filterMap fun asset =>
          (alist_get asset_hashes asset.target_path).map
            (fun value => value ++ "  " ++ String.intercalate "/" asset.target_path ++ "\n")),
        0o644, archive.time⟩]⟩ := by
  simp only [generate_md5sums, Archive.file, md5sums_content_eq, as_unix_path]

/-- C6: the `./conffiles` member's bytes are the configured text verbatim
followed by exactly one appended newline; in particular, input
`"/etc/foo.conf"` yields exactly the bytes `"/etc/foo.conf\n"`. -/
theorem conf_files_member_content (archive : Archive) (files : String) :
    generate_conf_files archive files =
      .ok ⟨archive.time, archive.entries ++ [⟨"./conffiles", files ++ "\n", 0o644, archive.time⟩]⟩ ∧
    generate_conf_files archive "/etc/foo.conf" =
      .ok ⟨archive.time, archive.entries ++ [⟨"./conffiles", "/etc/foo.conf\n", 0o644, archive.time⟩]⟩ :=
  ⟨rfl, rfl⟩

/-- The boolean `isPrefixOf` agrees with the propositional `<+:` order on
component lists. -/
theorem isPrefixOf_iff_pre {l t : List String} : List.isPrefixOf l t = true ↔ l <+: t :=
  List.isPrefixOf_iff_prefix

/-- A list is a `isPrefixOf`-prefix of itself followed by anything. -/
theorem isPrefixOf_append_self (l t : List String) : List.isPrefixOf l (l ++ t) = true := by
  rw [isPrefixOf_iff_pre]
  exact ⟨t, rfl⟩

/-- Lookup after a write: the written path reads back, others are
untouched. -/
theorem FS.lookup_write (fs : FS) (q : FsPath) (c : String) (p : FsPath) :
    FS.lookup (fs.write q c) p = if q = p then some (some c) else FS.lookup fs p := rfl

/-- Reading an unrelated path is unaffected by a write. -/
theorem FS.read_write_ne (fs : FS) (q : FsPath) (c : String) (p : FsPath) (hne : q ≠ p) :
    FS.read (fs.write q c) p = FS.read fs p := by
  simp [FS.read, FS.lookup_write, hne]

/-- The token-substitution engine panics whenever some relevant script
name (a name the fragment generator produced a fragment for) has a
user-supplied script that lacks the `#DEBHELPER#` token.  The survival
hypothesis `hsurv` says the user script does not live inside the
workspace, so earlier staging writes cannot shadow it. -/
theorem dh_lib_apply_missing_token (tmp u : FsPath) (frs : List (String × String)) (name frag script : String) (fs : FS)
    (hfrag : (name, frag) ∈ frs)
    (hlook : FS.read fs (u ++ [name]) = some script)
    (htok : containsToken script = false)
    (hsurv : List.isPrefixOf tmp (u ++ [name]) = false) :
    dh_lib_apply fs tmp u frs = .panic := by
  induction frs generalizing fs with
  | nil => cases hfrag
  | cons hd rest ih =>
    obtain ⟨n, f⟩ := hd
    have hwr : ∀ (c : String), FS.read (fs.write (tmp ++ [n]) c) (u ++ [name]) = some script := by
      intro c
      rw [FS.read_write_ne]
      · exact hlook
      · intro he
        rw [← he, isPrefixOf_append_self] at hsurv
        exact Bool.noConfusion hsurv
    by_cases hn : n = name
    · subst hn
      simp only [dh_lib_apply, hlook, htok]
      rfl
    · simp only [dh_lib_apply]
      rcases List.mem_cons.mp hfrag with heq | hmem
      · exact absurd (congrArg Prod.fst heq).symm hn
      · cases hr : FS.read fs (u ++ [n]) with
        | some s =>
          show (if containsToken s = true then
              dh_lib_apply (fs.write (tmp ++ [n]) (replaceToken f s)) tmp u rest
            else Outcome.panic) = Outcome.panic
          by_cases ht : containsToken s = true
          · rw [if_pos ht]
            exact ih _ hmem (hwr _)
          · rw [if_neg ht]
        | none => exact ih _ hmem (hwr _)

/-- The entries the script loop contributes under a canonicalization that
never fails: one entry per canonical name resolved by first-match search
to a readable file, in canonical-name order. -/
def scriptsDelta (fs : FS) (dirs : List FsPath) (time : Nat) (names : List String) : List Entry :=
  names.filterMap fun name =>
    (find_first fs dirs name).bind fun p =>
      (FS.read fs p).map fun c => (⟨name, c, 0o755, time⟩ : Entry)

/-- Closed form of the script loop when every path canonicalizes directly
under the manifest directory. -/
theorem archive_scripts_good_canon (fs : FS) (dirs : List FsPath) (mdir : FsPath) (canon : FsPath → Option FsPath)
    (hcanon : ∀ p, canon p = some (mdir ++ p)) (archive : Archive) (names : List String) :
    archive_scripts fs dirs canon mdir archive names =
      .ok ⟨archive.time, archive.entries ++ scriptsDelta fs dirs archive.time names⟩ := by
  induction names generalizing archive with
  | nil => simp [archive_scripts, scriptsDelta]
  | cons name rest ih =>
    simp only [archive_scripts, scriptsDelta, List.filterMap_cons]
    cases hf : find_first fs dirs name with
    | none =>
      simp only [Option.none_bind]
      rw [ih archive]
      simp [scriptsDelta]
    | some p =>
      simp only [Option.some_bind, hcanon p, isPrefixOf_append_self, eq_self_iff_true, if_true]
      cases hr : FS.read fs p with
      | none =>
        simp only [Option.map_none']
        rw [ih archive]
        simp [scriptsDelta]
      | some c =>
        simp only [Option.map_some']
        rw [ih (archive.file name c 0o755)]
        simp [scriptsDelta, Archive.file]

/-- Every entry contributed by the script loop originates from one of the
processed names, resolved by first-match search to a readable file. -/
theorem scriptsDelta_mem (fs : FS) (dirs : List FsPath) (time : Nat) (names : List String) (e : Entry)
    (he : e ∈ scriptsDelta fs dirs time names) :
    ∃ name p c, name ∈ names ∧ find_first fs dirs name = some p ∧ FS.read fs p = some c ∧
      e = ⟨name, c, 0o755, time⟩ := by
  induction names with
  | nil => simp [scriptsDelta] at he
  | cons name rest ih =>
    simp only [scriptsDelta, List.filterMap_cons] at he
    cases hf : find_first fs dirs name with
    | none =>
      rw [hf] at he
      simp only [Option.none_bind] at he
      obtain ⟨n, p, c, hn, hfind, hread, heq⟩ := ih he
      exact ⟨n, p, c, List.mem_cons_of_mem _ hn, hfind, hread, heq⟩
    | some p =>
      rw [hf] at he
      simp only [Option.some_bind] at he
      cases hr : FS.read fs p with
      | none =>
        rw [hr] at he
        simp only [Option.map_none'] at he
        obtain ⟨n, p2, c, hn, hfind, hread, heq⟩ := ih he
        exact ⟨n, p2, c, List.mem_cons_of_mem _ hn, hfind, hread, heq⟩
      | some c =>
        rw [hr] at he
        simp only [Option.map_some'] at he
        rcases List.mem_cons.mp he with heq | hmem
        · exact ⟨name, p, c, List.mem_cons_self _ _, hf, hr, heq⟩
        · obtain ⟨n, p2, c2, hn, hfind, hread, heq⟩ := ih hmem
          exact ⟨n, p2, c2, List.mem_cons_of_mem _ hn, hfind, hread, heq⟩

/-- Whatever the canonicalization does, a successful script loop only ever
appends: the new entries' names follow the processed-name order (a
sublist), all with script mode and the archive's timestamp. -/
theorem archive_scripts_ok_append (fs : FS) (dirs : List FsPath) (canon : FsPath → Option FsPath) (mdir : FsPath) (names : List String) (archive a2 : Archive)
    (h : archive_scripts fs dirs canon mdir archive names = .ok a2) :
    a2.time = archive.time ∧ ∃ Δ, a2.entries = archive.entries ++ Δ ∧
      List.Sublist (Δ.map Entry.name) names ∧ ∀ e ∈ Δ, e.mode = 0o755 ∧ e.mtime = archive.time := by
  induction names generalizing archive with
  | nil =>
    simp only [archive_scripts, Outcome.ok.injEq] at h
    subst h
    exact ⟨rfl, [], by simp, by simp, by simp⟩
  | cons name rest ih =>
    simp only [archive_scripts] at h
    cases hf : find_first fs dirs name with
    | none =>
      simp only [hf] at h
      obtain ⟨ht, Δ, he, hs, hprop⟩ := ih archive h
      exact ⟨ht, Δ, he, hs.cons name, hprop⟩
    | some p =>
      simp only [hf] at h
      cases hc : canon p with
      | none =>
        simp [hc] at h
      | some q =>
        simp only [hc] at h
        by_cases hq : List.isPrefixOf mdir q = true
        · rw [if_pos hq] at h
          cases hr : FS.read fs p with
          | none =>
            simp only [hr] at h
            obtain ⟨ht, Δ, he, hs, hprop⟩ := ih archive h
            exact ⟨ht, Δ, he, hs.cons name, hprop⟩
          | some c =>
            simp only [hr] at h
            obtain ⟨ht, Δ, he, hs, hprop⟩ := ih (archive.file name c 0o755) h
            refine ⟨ht, ⟨name, c, 0o755, archive.time⟩ :: Δ, ?_, ?_, ?_⟩
            · rw [he]
              simp [Archive.file]
            · exact List.Sublist.cons₂ name hs
            · intro e hme
              rcases List.mem_cons.mp hme with heq | hmem
              · subst heq
                exact ⟨rfl, rfl⟩
              · exact hprop e hmem
        · rw [if_neg hq] at h
          cases h

/-- The script loop never returns a typed error: read failures are
swallowed and the only failure mode is the canonicalize/strip panic. -/
theorem archive_scripts_ne_err (fs : FS) (dirs : List FsPath) (canon : FsPath → Option FsPath) (mdir : FsPath) (archive : Archive) (names : List String) :
    archive_scripts fs dirs canon mdir archive names ≠ .err := by
  induction names generalizing archive with
  | nil =>
    intro h
    cases h
  | cons name rest ih =>
    intro h
    simp only [archive_scripts] at h
    cases hff : find_first fs dirs name with
    | none =>
      simp only [hff] at h
      exact ih archive h
    | some p =>
      simp only [hff] at h
      cases hc : canon p with
      | none => simp [hc] at h
      | some q =>
        simp only [hc] at h
        by_cases hq : List.isPrefixOf mdir q = true
        · rw [if_pos hq] at h
          cases hr : FS.read fs p with
          | none =>
            simp only [hr] at h
            exact ih archive h
          | some c =>
            simp only [hr] at h
            exact ih (archive.file name c 0o755) h
        · rw [if_neg hq] at h
          cases h

/-- The script loop succeeds exactly when every name resolved by
first-match search canonicalizes to a path under the manifest
directory. -/
theorem archive_scripts_ok_iff (fs : FS) (dirs : List FsPath) (canon : FsPath → Option FsPath) (mdir : FsPath) (archive : Archive) (names : List String) :
    (∃ a2, archive_scripts fs dirs canon mdir archive names = .ok a2) ↔
      (∀ name ∈ names, ∀ p, find_first fs dirs name = some p →
        ∃ q, canon p = some q ∧ List.isPrefixOf mdir q = true) := by
  induction names generalizing archive with
  | nil => simp [archive_scripts]
  | cons name rest ih =>
    cases hff : find_first fs dirs name with
    | none =>
      have hred : archive_scripts fs dirs canon mdir archive (name :: rest) =
          archive_scripts fs dirs canon mdir archive rest := by
        simp only [archive_scripts, hff]
      rw [hred, ih archive, List.forall_mem_cons]
      simp [hff]
    | some p =>
      cases hc : canon p with
      | none =>
        have hred : archive_scripts fs dirs canon mdir archive (name :: rest) = Outcome.panic := by
          simp only [archive_scripts, hff, hc]
        rw [hred, List.forall_mem_cons]
        simp [hff, hc]
      | some q =>
        by_cases hq : List.isPrefixOf mdir q = true
        · have hq' : mdir <+: q := isPrefixOf_iff_pre.mp hq
          cases hr : FS.read fs p with
          | some c =>
            have hred : archive_scripts fs dirs canon mdir archive (name :: rest) =
                archive_scripts fs dirs canon mdir (archive.file name c 0o755) rest := by
              simp only [archive_scripts, hff, hc, hr, hq, if_true]
            rw [hred, ih (archive.file name c 0o755), List.forall_mem_cons]
            simp [hff, hc, hq']
          | none =>
            have hred : archive_scripts fs dirs canon mdir archive (name :: rest) =
                archive_scripts fs dirs canon mdir archive rest := by
              simp only [archive_scripts, hff, hc, hr, hq, if_true]
            rw [hred, ih archive, List.forall_mem_cons]
            simp [hff, hc, hq']
        · have hq' : ¬ (mdir <+: q) := fun hp => hq (isPrefixOf_iff_pre.mpr hp)
          have hred : archive_scripts fs dirs canon mdir archive (name :: rest) = Outcome.panic := by
            simp only [archive_scripts, hff, hc, if_neg hq]
          rw [hred, List.forall_mem_cons]
          simp [hff, hc, hq']

/-- The archive state after the md5sums, control and conffiles steps: the
two unconditional members followed by the conditional conffiles member. -/
def pre_archive (options : Config) (time : Nat) (asset_hashes : List (FsPath × String)) (ctrl : String) : Archive :=
  ⟨time, ⟨"./md5sums", md5sums_content asset_hashes options.assets.resolved, 0o644, time⟩ ::
    ⟨"./control", ctrl, 0o644, time⟩ ::
    (match options.conf_files with
     | some files => [⟨"./conffiles", files ++ "\n", 0o644, time⟩]
     | none => [])⟩

/-- Normal form of the pipeline: the md5sums, control and conffiles steps
can only fail through the dependency resolver, and produce
`pre_archive`. -/
theorem generate_archive_eq (env : Env) (options : Config) (time : Nat) (asset_hashes : List (FsPath × String)) (fragments : List (String × String)) :
    generate_archive env options time asset_hashes fragments =
      (control_content options).bind fun ctrl =>
      (generate_scripts env options fragments (pre_archive options time asset_hashes ctrl)).bind fun p =>
      (match options.triggers_file with
       | some file => generate_triggers_file p.2 p.1 file
       | none => .ok p.2).bind fun archive =>
      .ok archive.into_inner := by
  cases g : options.get_dependencies with
  | none =>
    simp [generate_archive, generate_md5sums, generate_control, control_content, g, Outcome.bind]
  | some deps =>
    cases hcf : options.conf_files with
    | none =>
      simp [generate_archive, generate_md5sums, generate_control, generate_conf_files,
        control_content, g, hcf, Outcome.bind, pre_archive, Archive.new, Archive.file]
    | some files =>
      simp [generate_archive, generate_md5sums, generate_control, generate_conf_files,
        control_content, g, hcf, Outcome.bind, pre_archive, Archive.new, Archive.file]

/-- A successful `generate_scripts` only appends entries, named after a
sublist of the six canonical names, all with script mode and the archive
timestamp; without a configured maintainer-script directory it appends
nothing. -/
theorem generate_scripts_ok_append (env : Env) (option : Config) (fragments : List (String × String)) (archive : Archive) (fs2 : FS) (a2 : Archive)
    (h : generate_scripts env option fragments archive = .ok (fs2, a2)) :
    a2.time = archive.time ∧ ∃ Δ, a2.entries = archive.entries ++ Δ ∧
      List.Sublist (Δ.map Entry.name) script_names ∧
      (∀ e ∈ Δ, e.mode = 0o755 ∧ e.mtime = archive.time) ∧
      (option.maintainer_scripts = none → Δ = []) := by
  cases hm : option.maintainer_scripts with
  | none =>
    simp only [generate_scripts, hm, Outcome.ok.injEq, Prod.mk.injEq] at h
    obtain ⟨hfs, ha⟩ := h
    subst ha
    exact ⟨rfl, [], by simp, by simp, by simp, fun _ => rfl⟩
  | some u =>
    simp only [generate_scripts, hm] at h
    cases hs : script_search_setup env option u fragments with
    | err =>
      simp only [hs, Outcome.bind] at h
      cases h
    | panic =>
      simp only [hs, Outcome.bind] at h
      cases h
    | ok pr =>
      simp only [hs, Outcome.bind] at h
      cases har : archive_scripts pr.1 pr.2 env.canon option.manifest_dir archive script_names with
      | err =>
        simp only [har, Outcome.bind] at h
        cases h
      | panic =>
        simp only [har, Outcome.bind] at h
        cases h
      | ok a3 =>
        simp only [har, Outcome.bind, Outcome.ok.injEq, Prod.mk.injEq] at h
        obtain ⟨hfs, ha⟩ := h
        subst ha
        obtain ⟨ht, Δ, he, hsub, hprop⟩ := archive_scripts_ok_append _ _ _ _ _ _ _ har
        refine ⟨ht, Δ, he, hsub, hprop, ?_⟩
        intro hnone
        cases hnone

/-- Characterization of a successful assembly: the member-name sequence is
`./md5sums`, `./control`, the conditional `./conffiles`, then script names
(a sublist of the six canonical names, empty without a maintainer-script
directory), then the conditional `./triggers`, and every member carries
the caller-supplied timestamp. -/
theorem generate_archive_names (env : Env) (options : Config) (time : Nat) (asset_hashes : List (FsPath × String)) (fragments : List (String × String)) (entries : List Entry)
    (h : generate_archive env options time asset_hashes fragments = .ok entries) :
    ∃ scriptNames trigNames,
      entries.map Entry.name = ["./md5sums", "./control"] ++
        (if options.conf_files.isSome then ["./conffiles"] else []) ++ scriptNames ++ trigNames ∧
      List.Sublist scriptNames script_names ∧
      (options.maintainer_scripts = none → scriptNames = []) ∧
      (trigNames = ["./triggers"] ∨ trigNames = []) ∧
      (options.triggers_file = none → trigNames = []) ∧
      (∀ e ∈ entries, e.mtime = time) := by
  rw [generate_archive_eq] at h
  cases g : control_content options with
  | err =>
    simp only [g, Outcome.bind] at h
    cases h
  | panic =>
    simp only [g, Outcome.bind] at h
    cases h
  | ok ctrl =>
    simp only [g, Outcome.bind] at h
    cases hs : generate_scripts env options fragments (pre_archive options time asset_hashes ctrl) with
    | err =>
      simp only [hs, Outcome.bind] at h
      cases h
    | panic =>
      simp only [hs, Outcome.bind] at h
      cases h
    | ok pr =>
      obtain ⟨fs2, a2⟩ := pr
      simp only [hs, Outcome.bind] at h
      obtain ⟨ht, Δ, he, hsub, hprop, hms⟩ := generate_scripts_ok_append _ _ _ _ _ _ hs
      have hpretime : (pre_archive options time asset_hashes ctrl).time = time := rfl
      have hconf : ((pre_archive options time asset_hashes ctrl).entries.map Entry.name) =
          ["./md5sums", "./control"] ++ (if options.conf_files.isSome then ["./conffiles"] else []) := by
        cases hcf : options.conf_files with
        | none => simp [pre_archive, hcf]
        | some files => simp [pre_archive, hcf]
      have hconfmt : ∀ e ∈ (pre_archive options time asset_hashes ctrl).entries, e.mtime = time := by
        intro e hme
        cases hcf : options.conf_files with
        | none =>
          simp only [pre_archive, hcf, List.mem_cons, List.not_mem_nil, or_false] at hme
          rcases hme with h1 | h1 <;> subst h1 <;> rfl
        | some files =>
          simp only [pre_archive, hcf, List.mem_cons, List.not_mem_nil, or_false] at hme
          rcases hme with h1 | h1 | h1 <;> subst h1 <;> rfl
      have hmt : ∀ e ∈ a2.entries, e.mtime = time := by
        intro e hme
        rw [he] at hme
        rcases List.mem_append.mp hme with h1 | h1
        · exact hconfmt e h1
        · rw [(hprop e h1).2, hpretime]
      have hnm : a2.entries.map Entry.name = (["./md5sums", "./control"] ++
          (if options.conf_files.isSome then ["./conffiles"] else [])) ++ Δ.map Entry.name := by
        rw [he, List.map_append, hconf]
      cases htf : options.triggers_file with
      | none =>
        simp only [htf, Outcome.bind, Outcome.ok.injEq] at h
        subst h
        refine ⟨Δ.map Entry.name, [], ?_, hsub, ?_, Or.inr rfl, fun _ => rfl, ?_⟩
        · rw [Archive.into_inner.eq_1, hnm, List.append_nil]
        · intro hnone
          rw [hms hnone]
          rfl
        · intro e hme
          exact hmt e hme
      | some file =>
        simp only [htf, Outcome.bind] at h
        cases hrd : FS.read fs2 file with
        | some content =>
          simp only [generate_triggers_file, hrd, Outcome.ok.injEq] at h
          subst h
          refine ⟨Δ.map Entry.name, ["./triggers"], ?_, hsub, ?_, Or.inl rfl, ?_, ?_⟩
          · simp only [Archive.into_inner.eq_1, Archive.file, List.map_append, hnm]
            simp
          · intro hnone
            rw [hms hnone]
            rfl
          · intro hnone
            cases hnone
          · intro e hme
            simp only [Archive.into_inner.eq_1, Archive.file, List.mem_append, List.mem_cons,
              List.not_mem_nil, or_false] at hme
            rcases hme with h1 | h1
            · exact hmt e h1
            · subst h1
              show a2.time = time
              rw [ht]
              exact hpretime
        | none =>
          simp only [generate_triggers_file, hrd, Outcome.ok.injEq] at h
          subst h
          refine ⟨Δ.map Entry.name, [], ?_, hsub, ?_, Or.inr rfl, ?_, ?_⟩
          · rw [Archive.into_inner.eq_1, hnm, List.append_nil]
          · intro hnone
            rw [hms hnone]
            rfl
          · intro hnone
            cases hnone
          · intro e hme
            exact hmt e hme

/-- C2: for every config, a successful assembly appends members in the
fixed order (1) md5sums, (2) control, (3) conffiles only if `conf_files`
is configured, (4) maintainer scripts only if a maintainer-script
directory is configured, (5) triggers only if a triggers file is
configured; `./md5sums` and `./control` are always present, and every
member carries the single caller-supplied timestamp. -/
theorem generate_archive_member_order (env : Env) (options : Config) (time : Nat) (asset_hashes : List (FsPath × String)) (fragments : List (String × String)) (entries : List Entry)
    (h : generate_archive env options time asset_hashes fragments = .ok entries) :
    ∃ scriptNames trigNames,
      entries.map Entry.name = ["./md5sums", "./control"] ++
        (if options.conf_files.isSome then ["./conffiles"] else []) ++ scriptNames ++ trigNames ∧
      List.Sublist scriptNames script_names ∧
      (options.maintainer_scripts = none → scriptNames = []) ∧
      (trigNames = ["./triggers"] ∨ trigNames = []) ∧
      (options.triggers_file = none → trigNames = []) ∧
      (∀ e ∈ entries, e.mtime = time) :=
  generate_archive_names env options time asset_hashes fragments entries h

/-- A concrete minimal environment: empty filesystem, identity-style
canonicalization, no injected faults. -/
def witness_env : Env :=
  ⟨⟨[]⟩, fun p => some p, false, false⟩

/-- A concrete minimal configuration. -/
def witness_config : Config where
  name := "a"
  deb_name := "a"
  deb_version := "1"
  architecture := "x"
  repository := none
  repository_type := none
  homepage := none
  documentation := none
  section' := none
  priority := "p"
  maintainer := "m"
  get_dependencies := some "d"
  build_depends := none
  conflicts := none
  breaks := none
  replaces := none
  provides := none
  description := "hi"
  extended_description := none
  assets := ⟨[]⟩
  conf_files := none
  maintainer_scripts := none
  systemd_units := none
  triggers_file := none
  deb_temp_dir := ["t"]
  manifest_dir := []

/-- The control text produced for `witness_config`. -/
def witness_control : String :=
  "Package: a\nVersion: 1\nArchitecture: x\nPriority: p\nStandards-Version: 3.9.4\nMaintainer: m\nInstalled-Size: 0\nDepends: d\nDescription: hi\n\n"

/-- The members produced for `witness_config`. -/
def witness_entries : List Entry :=
  [⟨"./md5sums", "", 0o644, 7⟩, ⟨"./control", witness_control, 0o644, 7⟩]

/-- Witness for C2 at a concrete input. -/
theorem generate_archive_member_order_witness :
    ∃ scriptNames trigNames,
      witness_entries.map Entry.name = ["./md5sums", "./control"] ++
        (if witness_config.conf_files.isSome then ["./conffiles"] else []) ++ scriptNames ++ trigNames ∧
      List.Sublist scriptNames script_names ∧
      (witness_config.maintainer_scripts = none → scriptNames = []) ∧
      (trigNames = ["./triggers"] ∨ trigNames = []) ∧
      (witness_config.triggers_file = none → trigNames = []) ∧
      (∀ e ∈ witness_entries, e.mtime = 7) :=
  generate_archive_member_order witness_env witness_config 7 [] [] witness_entries (by rfl)

/-- Specification-side rendering of the control-file header through the
`Maintainer` field, written from the claim's enumeration: `Package`,
`Version`, `Architecture`, then `Vcs-Browser` only if the repository URL
starts with `http`, then `Vcs-<Kind>` only if a kind is derivable from
the repository URL, then `Homepage` using the configured homepage or, if
absent, the documentation URL, then `Section` only if configured,
`Priority`, the fixed literal line `Standards-Version: 3.9.4`, and
`Maintainer`. -/
def control_header_spec (options : Config) : String :=
  "Package: " ++ options.deb_name ++ "\n" ++
  ("Version: " ++ options.deb_version ++ "\n") ++
  ("Architecture: " ++ options.architecture ++ "\n") ++
  (match options.repository with
   | some repo => if starts_with repo "http" then "Vcs-Browser: " ++ repo ++ "\n" else ""
   | none => "") ++
  (match options.repository, options.repository_type with
   | some repo, some kind => "Vcs-" ++ kind ++ ": " ++ repo ++ "\n"
   | _, _ => "") ++
  (match options.homepage with
   | some homepage => "Homepage: " ++ homepage ++ "\n"
   | none =>
     match options.documentation with
     | some documentation => "Homepage: " ++ documentation ++ "\n"
     | none => "") ++
  (match options.section' with
   | some s => "Section: " ++ s ++ "\n"
   | none => "") ++
  ("Priority: " ++ options.priority ++ "\n") ++
  "Standards-Version: 3.9.4\n" ++
  ("Maintainer: " ++ options.maintainer ++ "\n")

/-- The model's Vcs lines split into the claim's two independent
conditional lines. -/
theorem vcs_lines_split (options : Config) :
    vcs_lines options =
      (match options.repository with
       | some repo => if starts_with repo "http" then "Vcs-Browser: " ++ repo ++ "\n" else ""
       | none => "") ++
      (match options.repository, options.repository_type with
       | some repo, some kind => "Vcs-" ++ kind ++ ": " ++ repo ++ "\n"
       | _, _ => "") := by
  cases hr : options.repository with
  | none => simp [vcs_lines, hr]
  | some repo =>
    cases ht : options.repository_type with
    | none => simp [vcs_lines, hr, ht]
    | some kind => simp [vcs_lines, hr, ht]

/-- C3: the control text starts with exactly the claimed field sequence,
one line per present field: `Package`, `Version`, `Architecture`,
conditional `Vcs-Browser`, conditional `Vcs-<Kind>`, `Homepage` with
documentation fallback, conditional `Section`, `Priority`, the literal
`Standards-Version: 3.9.4`, and `Maintainer`. -/
theorem control_field_order (options : Config) (c : String)
    (h : control_content options = .ok c) :
    ∃ rest, c = control_header_spec options ++ rest := by
  cases g : options.get_dependencies with
  | none =>
    simp only [control_content, g] at h
    cases h
  | some deps =>
    simp only [control_content, g, Outcome.ok.injEq] at h
    subst h
    refine ⟨("Installed-Size: " ++ toString (installed_size options.assets.resolved) ++ "\n") ++
      ("Depends: " ++ deps ++ "\n") ++
      opt_field "Build-Depends" options.build_depends ++
      opt_field "Conflicts" options.conflicts ++
      opt_field "Breaks" options.breaks ++
      opt_field "Replaces" options.replaces ++
      opt_field "Provides" options.provides ++
      ("Description:" ++ description_block (split_by_chars options.description 79)) ++
      (match options.extended_description with
       | some desc => description_block (split_by_chars desc 79)
       | none => "") ++
      "\n", ?_⟩
    rw [control_header_spec.eq_1, vcs_lines_split]
    simp only [homepage_line, section_line, String.append_assoc]

/-- Witness for C3 at a concrete input. -/
theorem control_field_order_witness :
    ∃ rest, witness_control = control_header_spec witness_config ++ rest :=
  control_field_order witness_config witness_control (by rfl)

/-- C4: the control text contains the `Installed-Size` field whose value
is the sum of all asset source sizes in bytes, integer-divided by 1024
with truncation (`Nat` division truncates, as does the original `u64`
division). -/
theorem control_installed_size (options : Config) (c : String)
    (h : control_content options = .ok c) :
    ∃ pre post, c = pre ++ ("Installed-Size: " ++
      toString ((options.assets.resolved.filterMap fun m => m.source.len).sum / 1024) ++ "\n") ++ post := by
  cases g : options.get_dependencies with
  | none =>
    simp only [control_content, g] at h
    cases h
  | some deps =>
    simp only [control_content, g, Outcome.ok.injEq] at h
    subst h
    refine ⟨"Package: " ++ options.deb_name ++ "\n" ++
      ("Version: " ++ options.deb_version ++ "\n") ++
      ("Architecture: " ++ options.architecture ++ "\n") ++
      vcs_lines options ++
      homepage_line options ++
      section_line options ++
      ("Priority: " ++ options.priority ++ "\n") ++
      "Standards-Version: 3.9.4\n" ++
      ("Maintainer: " ++ options.maintainer ++ "\n"),
      ("Depends: " ++ deps ++ "\n") ++
      opt_field "Build-Depends" options.build_depends ++
      opt_field "Conflicts" options.conflicts ++
      opt_field "Breaks" options.breaks ++
      opt_field "Replaces" options.replaces ++
      opt_field "Provides" options.provides ++
      ("Description:" ++ description_block (split_by_chars options.description 79)) ++
      (match options.extended_description with
       | some desc => description_block (split_by_chars desc 79)
       | none => "") ++
      "\n", ?_⟩
    simp only [installed_size, String.append_assoc]

/-- Witness for C4 at a concrete input. -/
theorem control_installed_size_witness :
    ∃ pre post, witness_control = pre ++ ("Installed-Size: " ++
      toString ((witness_config.assets.resolved.filterMap fun m => m.source.len).sum / 1024) ++ "\n") ++ post :=
  control_installed_size witness_config witness_control (by rfl)

/-- Without systemd integration, `generate_scripts` performs no
filesystem writes: the filesystem it hands to the triggers step is the
input filesystem. -/
theorem generate_scripts_fs_no_systemd (env : Env) (option : Config) (fragments : List (String × String)) (archive : Archive) (fs2 : FS) (a2 : Archive)
    (hsys : option.systemd_units = none)
    (h : generate_scripts env option fragments archive = .ok (fs2, a2)) :
    fs2 = env.fs := by
  cases hm : option.maintainer_scripts with
  | none =>
    simp only [generate_scripts, hm, Outcome.ok.injEq, Prod.mk.injEq] at h
    exact h.1.symm
  | some u =>
    simp only [generate_scripts, hm, script_search_setup, hsys, Outcome.bind] at h
    cases har : archive_scripts env.fs [u] env.canon option.manifest_dir archive script_names with
    | ok a3 =>
      simp only [har, Outcome.bind, Outcome.ok.injEq, Prod.mk.injEq] at h
      exact h.1.symm
    | err =>
      simp only [har, Outcome.bind] at h
      cases h
    | panic =>
      simp only [har, Outcome.bind] at h
      cases h

/-- C7: an unreadable configured triggers file is silently treated as no
triggers file — configuring it changes nothing: the assembly still
succeeds with exactly the same members and no error — and when no
triggers file is configured at all, `./triggers` does not appear among
the archive's member names. -/
theorem triggers_unreadable_or_unconfigured (env : Env) (options : Config) (time : Nat) (asset_hashes : List (FsPath × String)) (fragments : List (String × String)) (entries : List Entry) (file : FsPath)
    (hsys : options.systemd_units = none)
    (hnone : options.triggers_file = none)
    (hread : FS.read env.fs file = none)
    (hok : generate_archive env options time asset_hashes fragments = .ok entries) :
    generate_archive env { options with triggers_file := some file } time asset_hashes fragments = .ok entries ∧
    "./triggers" ∉ entries.map Entry.name := by
  constructor
  · rw [generate_archive_eq] at hok ⊢
    have hcc : control_content { options with triggers_file := some file } = control_content options := rfl
    rw [hcc]
    cases g : control_content options with
    | err =>
      simp only [g, Outcome.bind] at hok
      cases hok
    | panic =>
      simp only [g, Outcome.bind] at hok
      cases hok
    | ok ctrl =>
      simp only [g, Outcome.bind] at hok ⊢
      have hgs : generate_scripts env { options with triggers_file := some file } fragments
          (pre_archive { options with triggers_file := some file } time asset_hashes ctrl) =
          generate_scripts env options fragments (pre_archive options time asset_hashes ctrl) := rfl
      rw [hgs]
      cases hs : generate_scripts env options fragments (pre_archive options time asset_hashes ctrl) with
      | err =>
        simp only [hs, Outcome.bind] at hok
        cases hok
      | panic =>
        simp only [hs, Outcome.bind] at hok
        cases hok
      | ok pr =>
        obtain ⟨fs2, a2⟩ := pr
        have hfs : fs2 = env.fs := generate_scripts_fs_no_systemd env options fragments _ fs2 a2 hsys hs
        simp only [hs, Outcome.bind, hnone] at hok
        simp only [hs, Outcome.bind, generate_triggers_file, hfs, hread]
        exact hok
  · intro hmem
    obtain ⟨scriptNames, trigNames, hnames, hsub, _, _, htrig, _⟩ :=
      generate_archive_names env options time asset_hashes fragments entries hok
    rw [hnames, htrig hnone, List.append_nil] at hmem
    rcases List.mem_append.mp hmem with h1 | h1
    · rcases List.mem_append.mp h1 with h2 | h2
      · simp at h2
      · by_cases hc : options.conf_files.isSome = true
        · rw [if_pos hc] at h2
          simp at h2
        · rw [if_neg hc] at h2
          simp at h2
    · have h2 := hsub.subset h1
      simp [script_names] at h2

/-- Witness environment for the triggers claim: one unreadable file. -/
def witness_env_trig : Env :=
  ⟨⟨[(["x", "triggers"], none)]⟩, fun p => some p, false, false⟩

/-- Witness for C7 at a concrete input. -/
theorem triggers_unreadable_or_unconfigured_witness :
    generate_archive witness_env_trig { witness_config with triggers_file := some ["x", "triggers"] } 7 [] [] = .ok witness_entries ∧
    "./triggers" ∉ witness_entries.map Entry.name :=
  triggers_unreadable_or_unconfigured witness_env_trig witness_config 7 [] [] witness_entries
    ["x", "triggers"] (by rfl) (by rfl) (by rfl) (by rfl)

/-- C8: scripts are resolved by taking, for each of the six canonical
names, the content of the first search-path directory containing a file
of that name; with systemd integration active the workspace directory is
prepended, so when both the workspace and the user directory contain a
`postinst`, the archived `postinst` bytes are the workspace's version,
not the user's original; a name resolved nowhere is not an error — its
member is simply omitted. -/
theorem scripts_workspace_precedence (env : Env) (option : Config) (fragments : List (String × String)) (archive : Archive) (u : FsPath) (cfg : SystemdUnitsConfig) (fs2 : FS) (w uw : String)
    (hm : option.maintainer_scripts = some u)
    (hs : option.systemd_units = some cfg)
    (hsetup : script_search_setup env option u fragments = .ok (fs2, [tmp_dir_of option, u]))
    (hcanon : ∀ p, env.canon p = some (option.manifest_dir ++ p))
    (hwork : FS.lookup fs2 (tmp_dir_of option ++ ["postinst"]) = some (some w))
    (huser : FS.lookup fs2 (u ++ ["postinst"]) = some (some uw)) :
    ∃ Δ, generate_scripts env option fragments archive = .ok (fs2, ⟨archive.time, archive.entries ++ Δ⟩) ∧
      (⟨"postinst", w, 0o755, archive.time⟩ : Entry) ∈ Δ ∧
      (∀ e ∈ Δ, e.name = "postinst" → e.data = w) ∧
      (∀ name ∈ script_names, find_first fs2 [tmp_dir_of option, u] name = none →
        name ∉ Δ.map Entry.name) := by
  have hex : fs2.pathExists (tmp_dir_of option ++ ["postinst"]) = true := by
    simp [FS.pathExists, hwork]
  have hff : find_first fs2 [tmp_dir_of option, u] "postinst" = some (tmp_dir_of option ++ ["postinst"]) := by
    simp [find_first, hex]
  have hrd : FS.read fs2 (tmp_dir_of option ++ ["postinst"]) = some w := by
    simp [FS.read, hwork]
  refine ⟨scriptsDelta fs2 [tmp_dir_of option, u] archive.time script_names, ?_, ?_, ?_, ?_⟩
  · simp only [generate_scripts, hm, hsetup, Outcome.bind,
      archive_scripts_good_canon fs2 [tmp_dir_of option, u] option.manifest_dir env.canon hcanon archive script_names]
  · simp only [scriptsDelta]
    apply List.mem_filterMap.mpr
    refine ⟨"postinst", by simp [script_names], ?_⟩
    simp [hff, hrd]
  · intro e he hne
    obtain ⟨n, p, c, hn, hfind, hread2, heq⟩ := scriptsDelta_mem _ _ _ _ _ he
    subst heq
    have hn2 : n = "postinst" := hne
    rw [hn2, hff] at hfind
    have hp : tmp_dir_of option ++ ["postinst"] = p := by
      injection hfind
    rw [← hp] at hread2
    rw [hrd] at hread2
    have hc : w = c := by
      injection hread2
    show c = w
    rw [hc]
  · intro name hnm hnone hmem
    obtain ⟨e, heΔ, hename⟩ := List.mem_map.mp hmem
    obtain ⟨n, p, c, hn, hfind, hread2, heq⟩ := scriptsDelta_mem _ _ _ _ _ heΔ
    subst heq
    have hn2 : n = name := hename
    rw [hn2, hnone] at hfind
    cases hfind

/-- A concrete configuration with systemd integration and a user script
directory. -/
def witness_config_c8 : Config :=
  { witness_config with maintainer_scripts := some ["d"], systemd_units := some ⟨none⟩ }

/-- A concrete environment whose user directory holds a `postinst` with
the marker token. -/
def witness_env_c8 : Env :=
  ⟨⟨[(["d", "postinst"], some "X#DEBHELPER#Y")]⟩, fun p => some p, false, false⟩

/-- The filesystem after the token-substitution engine ran for
`witness_env_c8`: the workspace holds the merged `postinst`. -/
def witness_fs2_c8 : FS :=
  ⟨[(["t", "systemd", "postinst"], some "XFY"), (["d", "postinst"], some "X#DEBHELPER#Y")]⟩

/-- Witness for C8 at a concrete input. -/
theorem scripts_workspace_precedence_witness :
    ∃ Δ, generate_scripts witness_env_c8 witness_config_c8 [("postinst", "F")] (Archive.new 7) =
        .ok (witness_fs2_c8, ⟨(Archive.new 7).time, (Archive.new 7).entries ++ Δ⟩) ∧
      (⟨"postinst", "XFY", 0o755, (Archive.new 7).time⟩ : Entry) ∈ Δ ∧
      (∀ e ∈ Δ, e.name = "postinst" → e.data = "XFY") ∧
      (∀ name ∈ script_names, find_first witness_fs2_c8 [tmp_dir_of witness_config_c8, ["d"]] name = none →
        name ∉ Δ.map Entry.name) :=
  scripts_workspace_precedence witness_env_c8 witness_config_c8 [("postinst", "F")] (Archive.new 7)
    ["d"] ⟨none⟩ witness_fs2_c8 "XFY" "X#DEBHELPER#Y" (by rfl) (by rfl) (by rfl) (fun p => rfl)
    (by rfl) (by rfl)

/-- C10: once the search setup has succeeded, the script loop can only
succeed or panic — never return a typed error — and it succeeds exactly
when every script path resolved by first-match search canonicalizes
(`canonicalize().unwrap()`) to a path under the manifest directory
(`strip_prefix(manifest_dir).unwrap()`); any resolved path violating this
makes the function panic. -/
theorem scripts_canonicalize_requirement (env : Env) (option : Config) (fragments : List (String × String)) (archive : Archive) (u : FsPath) (fs2 : FS) (dirs : List FsPath)
    (hm : option.maintainer_scripts = some u)
    (hsetup : script_search_setup env option u fragments = .ok (fs2, dirs)) :
    ((∃ x, generate_scripts env option fragments archive = .ok x) ∨
      generate_scripts env option fragments archive = .panic) ∧
    ((∃ x, generate_scripts env option fragments archive = .ok x) ↔
      (∀ name ∈ script_names, ∀ p, find_first fs2 dirs name = some p →
        ∃ q, env.canon p = some q ∧ List.isPrefixOf option.manifest_dir q = true)) := by
  have hred : generate_scripts env option fragments archive =
      (archive_scripts fs2 dirs env.canon option.manifest_dir archive script_names).bind fun a2 =>
        .ok (fs2, a2) := by
    simp only [generate_scripts, hm, hsetup, Outcome.bind]
  constructor
  · cases har : archive_scripts fs2 dirs env.canon option.manifest_dir archive script_names with
    | ok a2 =>
      exact Or.inl ⟨(fs2, a2), by rw [hred]; simp [har, Outcome.bind]⟩
    | err =>
      exact absurd har (archive_scripts_ne_err _ _ _ _ _ _)
    | panic =>
      exact Or.inr (by rw [hred]; simp [har, Outcome.bind])
  · rw [hred]
    constructor
    · rintro ⟨x, hx⟩
      cases har : archive_scripts fs2 dirs env.canon option.manifest_dir archive script_names with
      | ok a2 =>
        exact (archive_scripts_ok_iff fs2 dirs env.canon option.manifest_dir archive script_names).mp
          ⟨a2, har⟩
      | err =>
        rw [har] at hx
        cases hx
      | panic =>
        rw [har] at hx
        cases hx
    · intro hall
      obtain ⟨a2, ha2⟩ :=
        (archive_scripts_ok_iff fs2 dirs env.canon option.manifest_dir archive script_names).mpr hall
      exact ⟨(fs2, a2), by simp [ha2, Outcome.bind]⟩

/-- Witness for C10 at a concrete input. -/
theorem scripts_canonicalize_requirement_witness :
    ((∃ x, generate_scripts witness_env_c8 witness_config_c8 [("postinst", "F")] (Archive.new 7) = .ok x) ∨
      generate_scripts witness_env_c8 witness_config_c8 [("postinst", "F")] (Archive.new 7) = .panic) ∧
    ((∃ x, generate_scripts witness_env_c8 witness_config_c8 [("postinst", "F")] (Archive.new 7) = .ok x) ↔
      (∀ name ∈ script_names, ∀ p,
        find_first witness_fs2_c8 [["t", "systemd"], ["d"]] name = some p →
        ∃ q, witness_env_c8.canon p = some q ∧
          List.isPrefixOf witness_config_c8.manifest_dir q = true)) :=
  scripts_canonicalize_requirement witness_env_c8 witness_config_c8 [("postinst", "F")]
    (Archive.new 7) ["d"] witness_fs2_c8 [["t", "systemd"], ["d"]] (by rfl) (by rfl)

/-- Association lookup is unaffected by filtering away entries under an
unrelated directory. -/
theorem alist_filter_get (files : List (FsPath × Option String)) (d p : FsPath)
    (h : List.isPrefixOf d p = false) :
    alist_get (files.filter (fun e => !(List.isPrefixOf d e.1))) p = alist_get files p := by
  induction files with
  | nil => rfl
  | cons e rest ih =>
    obtain ⟨k, v⟩ := e
    by_cases hk : k = p
    · subst hk
      simp [List.filter_cons, h, alist_get]
    · cases hpre : List.isPrefixOf d k with
      | true => simp [List.filter_cons, hpre, alist_get, hk, ih]
      | false => simp [List.filter_cons, hpre, alist_get, hk, ih]

/-- Reading a path outside the removed directory is unaffected by
`remove_dir_all`. -/
theorem FS.read_removeDirAll (fs : FS) (d p : FsPath) (h : List.isPrefixOf d p = false) :
    FS.read (fs.removeDirAll d) p = FS.read fs p := by
  simp only [FS.read, FS.lookup, FS.removeDirAll, alist_filter_get fs.files d p h]

/-- C1: with systemd integration configured, when the fragment generator
produced a shell fragment for a script name (a relevant name) and the
user-supplied maintainer script of that name lacks the `#DEBHELPER#`
marker token, the whole assembly panics — a hard, unrecoverable failure,
neither a typed error nor retried nor locally caught — and no archive
bytes for any member are returned to the caller. -/
theorem systemd_missing_token_aborts (env : Env) (options : Config) (time : Nat) (asset_hashes : List (FsPath × String)) (fragments : List (String × String)) (u : FsPath) (cfg : SystemdUnitsConfig) (deps name frag script : String)
    (hdeps : options.get_dependencies = some deps)
    (hm : options.maintainer_scripts = some u)
    (hsys : options.systemd_units = some cfg)
    (hrm : env.remove_dir_all_err = false)
    (hcr : env.create_dir_err = false)
    (hfrag : (name, frag) ∈ fragments)
    (hsurv : List.isPrefixOf (tmp_dir_of options) (u ++ [name]) = false)
    (hscript : FS.read env.fs (u ++ [name]) = some script)
    (htok : containsToken script = false) :
    generate_archive env options time asset_hashes fragments = .panic ∧
    ∀ entries, generate_archive env options time asset_hashes fragments ≠ .ok entries := by
  have hsetup : script_search_setup env options u fragments = .panic := by
    simp only [script_search_setup, hsys]
    cases hex : env.fs.dirExists (tmp_dir_of options) with
    | false =>
      simp only [hex, hrm, hcr, Outcome.bind, Bool.false_eq_true, if_false,
        dh_lib_apply_missing_token (tmp_dir_of options) u fragments name frag script env.fs
          hfrag hscript htok hsurv]
    | true =>
      have hread1 : FS.read (env.fs.removeDirAll (tmp_dir_of options)) (u ++ [name]) = some script := by
        rw [FS.read_removeDirAll env.fs (tmp_dir_of options) (u ++ [name]) hsurv]
        exact hscript
      simp only [hex, hrm, hcr, Outcome.bind, Bool.false_eq_true, if_false, if_true,
        dh_lib_apply_missing_token (tmp_dir_of options) u fragments name frag script
          (env.fs.removeDirAll (tmp_dir_of options)) hfrag hread1 htok hsurv]
  have hgen : ∀ archive : Archive, generate_scripts env options fragments archive = .panic := by
    intro archive
    simp only [generate_scripts, hm, hsetup, Outcome.bind]
  have hmain : generate_archive env options time asset_hashes fragments = .panic := by
    rw [generate_archive_eq]
    cases g : control_content options with
    | err =>
      simp only [control_content, hdeps] at g
      cases g
    | panic =>
      simp only [control_content, hdeps] at g
      cases g
    | ok ctrl =>
      simp only [g, Outcome.bind, hgen]
  refine ⟨hmain, ?_⟩
  intro entries hcontra
  rw [hmain] at hcontra
  cases hcontra

/-- A concrete environment whose user `postinst` lacks the marker
token. -/
def witness_env_c1 : Env :=
  ⟨⟨[(["d", "postinst"], some "no token here")]⟩, fun p => some p, false, false⟩

/-- Witness for C1 at a concrete input. -/
theorem systemd_missing_token_aborts_witness :
    generate_archive witness_env_c1 witness_config_c8 7 [] [("postinst", "F")] = .panic ∧
    ∀ entries, generate_archive witness_env_c1 witness_config_c8 7 [] [("postinst", "F")] ≠ .ok entries :=
  systemd_missing_token_aborts witness_env_c1 witness_config_c8 7 [] [("postinst", "F")]
    ["d"] ⟨none⟩ "d" "postinst" "F" "no token here" (by rfl) (by rfl) (by rfl) (by rfl) (by rfl)
    (by simp) (by rfl) (by rfl) (by rfl)

/-- The systemd workspace setup returns a typed error when directory
removal of a stale workspace fails, or when workspace creation fails. -/
theorem setup_err_cases (env : Env) (option : Config) (u : FsPath) (fragments : List (String × String)) (cfg : SystemdUnitsConfig)
    (hcfg : option.systemd_units = some cfg)
    (h : env.remove_dir_all_err = true ∧ FS.dirExists env.fs (tmp_dir_of option) = true ∨
      env.create_dir_err = true) :
    script_search_setup env option u fragments = .err := by
  simp only [script_search_setup, hcfg]
  rcases h with ⟨hrm, hex⟩ | hcr
  · simp only [hex, hrm, if_true, Outcome.bind]
  · cases hex : env.fs.dirExists (tmp_dir_of option) with
    | true =>
      cases hrm : env.remove_dir_all_err with
      | true => simp only [hex, hrm, if_true, Outcome.bind]
      | false => simp only [hex, hrm, Bool.false_eq_true, if_false, if_true, Outcome.bind, hcr]
    | false => simp only [hex, Bool.false_eq_true, if_false, Outcome.bind, hcr, if_true]

/-- A failed workspace setup propagates out of `generate_scripts` as a
typed error. -/
theorem generate_scripts_err_setup (env : Env) (option : Config) (fragments : List (String × String)) (archive : Archive) (u : FsPath)
    (hm : option.maintainer_scripts = some u)
    (hset : script_search_setup env option u fragments = .err) :
    generate_scripts env option fragments archive = .err := by
  simp only [generate_scripts, hm, hset, Outcome.bind]

/-- A script-step error propagates out of the whole assembly as a typed
error. -/
theorem generate_archive_err_scripts (env : Env) (options : Config) (time : Nat) (asset_hashes : List (FsPath × String)) (fragments : List (String × String))
    (hgs : ∀ archive, generate_scripts env options fragments archive = .err) :
    generate_archive env options time asset_hashes fragments = .err := by
  rw [generate_archive_eq]
  cases g : control_content options with
  | err => simp [g, Outcome.bind]
  | panic => cases hd : options.get_dependencies <;> simp [control_content, hd] at g
  | ok ctrl => simp only [g, Outcome.bind, hgs]

/-- A concrete environment whose user `postinst` exists but cannot be
read. -/
def cex_env_c9 : Env :=
  ⟨⟨[(["d", "postinst"], none)]⟩, fun p => some p, false, false⟩

/-- A concrete configuration with a maintainer-script directory and no
systemd integration. -/
def cex_config_c9 : Config :=
  { witness_config with maintainer_scripts := some ["d"] }

/-- C9 counterexample: a maintainer script resolved by the first-match
search whose read fails does NOT abort the assembly — the member is
silently omitted (`if let Ok(script) = fs::read(..)`, `control.rs` line
107) and archive bytes are returned — refuting the claim that every
file-read fault is propagated and aborts the assembly before any bytes
are handed to the caller. -/
theorem script_read_failure_swallowed_cex :
    find_first cex_env_c9.fs [["d"]] "postinst" = some ["d", "postinst"] ∧
    FS.read cex_env_c9.fs ["d", "postinst"] = none ∧
    generate_archive cex_env_c9 cex_config_c9 7 [] [] = .ok witness_entries ∧
    "postinst" ∉ witness_entries.map Entry.name :=
  ⟨by rfl, by rfl, by rfl, by decide⟩

/-- C9 amended: faults that the pipeline does propagate (dependency
resolution, workspace directory removal, workspace directory creation)
abort the whole assembly with a typed error and no bytes are returned;
however, a failure to read a resolved maintainer-script file is locally
caught: the script step succeeds and only that member is omitted. -/
theorem io_fault_policy_amended (env : Env) (options : Config) (time : Nat) (asset_hashes : List (FsPath × String)) (fragments : List (String × String)) (u : FsPath) (name : String) (p : FsPath) (archive : Archive) :
    (options.get_dependencies = none →
      generate_archive env options time asset_hashes fragments = .err) ∧
    (options.maintainer_scripts = some u → options.systemd_units.isSome = true →
      env.remove_dir_all_err = true → FS.dirExists env.fs (tmp_dir_of options) = true →
      generate_archive env options time asset_hashes fragments = .err) ∧
    (options.maintainer_scripts = some u → options.systemd_units.isSome = true →
      env.create_dir_err = true →
      generate_archive env options time asset_hashes fragments = .err) ∧
    (options.maintainer_scripts = some u → options.systemd_units = none →
      (∀ q, env.canon q = some (options.manifest_dir ++ q)) →
      name ∈ script_names → find_first env.fs [u] name = some p → FS.read env.fs p = none →
      generate_scripts env options fragments archive =
        .ok (env.fs, ⟨archive.time, archive.entries ++ scriptsDelta env.fs [u] archive.time script_names⟩) ∧
      name ∉ (scriptsDelta env.fs [u] archive.time script_names).map Entry.name) := by
  refine ⟨?_, ?_, ?_, ?_⟩
  · intro hdeps
    rw [generate_archive_eq]
    simp [control_content, hdeps, Outcome.bind]
  · intro hm hcfg hrm hex
    obtain ⟨cfg, hcfg2⟩ := Option.isSome_iff_exists.mp hcfg
    exact generate_archive_err_scripts env options time asset_hashes fragments fun a =>
      generate_scripts_err_setup env options fragments a u hm
        (setup_err_cases env options u fragments cfg hcfg2 (Or.inl ⟨hrm, hex⟩))
  · intro hm hcfg hcr
    obtain ⟨cfg, hcfg2⟩ := Option.isSome_iff_exists.mp hcfg
    exact generate_archive_err_scripts env options time asset_hashes fragments fun a =>
      generate_scripts_err_setup env options fragments a u hm
        (setup_err_cases env options u fragments cfg hcfg2 (Or.inr hcr))
  · intro hm hsys hcanon hnm hfind hrd
    constructor
    · simp only [generate_scripts, hm, script_search_setup, hsys, Outcome.bind,
        archive_scripts_good_canon env.fs [u] options.manifest_dir env.canon hcanon archive script_names]
    · intro hmem
      obtain ⟨e, heΔ, hename⟩ := List.mem_map.mp hmem
      obtain ⟨n, p2, c, hn, hfind2, hread2, heq⟩ := scriptsDelta_mem _ _ _ _ _ heΔ
      subst heq
      have hn2 : n = name := hename
      rw [hn2, hfind] at hfind2
      have hp2 : p = p2 := by
        injection hfind2
      rw [← hp2, hrd] at hread2
      cases hread2

/-- A concrete configuration whose dependency resolution fails. -/
def witness_config_deps_err : Config :=
  { witness_config with get_dependencies := none }

/-- Witness for the amended C9 at concrete inputs: a propagated
dependency-resolution fault aborts with a typed error, while an
unreadable resolved `postinst` is locally swallowed with the member
omitted. -/
theorem io_fault_policy_amended_witness :
    (generate_archive witness_env witness_config_deps_err 7 [] [] = .err) ∧
    (generate_scripts cex_env_c9 cex_config_c9 [] (Archive.new 7) =
        .ok (cex_env_c9.fs, ⟨(Archive.new 7).time,
          (Archive.new 7).entries ++ scriptsDelta cex_env_c9.fs [["d"]] (Archive.new 7).time script_names⟩) ∧
      "postinst" ∉ (scriptsDelta cex_env_c9.fs [["d"]] (Archive.new 7).time script_names).map Entry.name) :=
  ⟨(io_fault_policy_amended witness_env witness_config_deps_err 7 [] [] ["d"] "postinst"
      ["d", "postinst"] (Archive.new 7)).1 (by rfl),
   (io_fault_policy_amended cex_env_c9 cex_config_c9 7 [] [] ["d"] "postinst"
      ["d", "postinst"] (Archive.new 7)).2.2.2 (by rfl) (by rfl) (fun q => rfl)
      (by simp [script_names]) (by rfl) (by rfl)⟩
